import Mathlib

/-!
Verification of the stock-limit-tracker repository.

Prices are embedded as `Option ℚ`: `none` models a missing value (pandas
`NaN`), `some q` a present price.  Dates (`YYYYMMDD` strings in the source)
are embedded as `Nat`; for fixed-width digit strings the lexicographic
order used by pandas coincides with the numeric order.
-/

namespace StockLimit

/-! ## config.py -/

/-- config.py: `LIMIT_TOLERANCE = 0.001`. -/
def LIMIT_TOLERANCE : ℚ := 1 / 1000

/-- config.py: `LIMIT_RATIO['MAIN'] = 0.10` (default board limit ratio). -/
def LIMIT_RATIO_MAIN : ℚ := 1 / 10

/-- config.py: `FETCH_BATCH_SIZE = 100`. -/
def FETCH_BATCH_SIZE : Nat := 100

/-- config.py: `TUSHARE_MAX_CALLS_PER_MIN = 195`. -/
def TUSHARE_MAX_CALLS_PER_MIN : Nat := 195

/-! ## limit_calculator.py -/

/-- limit_calculator.py `is_limit_up`: false on missing data or
`pre_close <= 0`; otherwise `close >= limit_price * (1 - LIMIT_TOLERANCE)`
with `limit_price = pre_close * (1 + limit_ratio)`. -/
def is_limit_up (close pre_close : Option ℚ) (limit_ratio : ℚ) : Bool :=
  match close, pre_close with
  | some c, some pc =>
      if pc ≤ 0 then false
      else
        let limit_price := pc * (1 + limit_ratio)
        decide (limit_price * (1 - LIMIT_TOLERANCE) ≤ c)
  | _, _ => false

/-- limit_calculator.py `is_yizi_board`: all of open/high/low/close within
`tolerance = limit_price * LIMIT_TOLERANCE` (an absolute price amount) of
the limit price.  A missing `pre_close` makes `limit_price` NaN, so every
float comparison `abs(p - limit_price) <= tolerance` is false; we embed
that as `false`. -/
def is_yizi_board (open_price high low close pre_close : Option ℚ)
    (limit_ratio : ℚ) : Bool :=
  match open_price, high, low, close, pre_close with
  | some o, some h, some l, some c, some pc =>
      let limit_price := pc * (1 + limit_ratio)
      let tolerance := limit_price * LIMIT_TOLERANCE
      decide (|o - limit_price| ≤ tolerance ∧ |h - limit_price| ≤ tolerance ∧
              |l - limit_price| ≤ tolerance ∧ |c - limit_price| ≤ tolerance)
  | _, _, _, _, _ => false

/-- limit_calculator.py `is_fried_board`.  Note the source first computes
`tolerance = limit_price * config.LIMIT_TOLERANCE` (an absolute amount) and
then uses it again as if it were a fraction: both thresholds are
`limit_price * (1 - tolerance)`, i.e.
`limit_price * (1 - limit_price * LIMIT_TOLERANCE)`. -/
def is_fried_board (high close pre_close : Option ℚ) (limit_ratio : ℚ) : Bool :=
  match high, close, pre_close with
  | some h, some c, some pc =>
      let limit_price := pc * (1 + limit_ratio)
      let tolerance := limit_price * LIMIT_TOLERANCE
      decide (limit_price * (1 - tolerance) ≤ h ∧ c < limit_price * (1 - tolerance))
  | _, _, _ => false

/-- A row of the `daily_market_data` table / of the per-stock DataFrame
handed to `calculate_single_stock_chain` (columns date, code, open, high,
low, close, pre_close, volume, amount). -/
structure BarRow where
  date : Nat
  code : String
  open_price : Option ℚ
  high : Option ℚ
  low : Option ℚ
  close : Option ℚ
  pre_close : Option ℚ
  volume : Option ℚ
  amount : Option ℚ
  deriving DecidableEq

/-- A row of the result of `calculate_single_stock_chain` (columns date,
code, limit_status, chain_height, is_fried, board_type). -/
structure ChainRow where
  date : Nat
  code : String
  limit_status : Nat
  chain_height : Nat
  is_fried : Nat
  board_type : String
  deriving DecidableEq

instance : Inhabited ChainRow :=
  ⟨{ date := 0, code := "", limit_status := 0, chain_height := 0,
     is_fried := 0, board_type := "normal" }⟩

instance : Inhabited BarRow :=
  ⟨{ date := 0, code := "", open_price := none, high := none, low := none,
     close := none, pre_close := none, volume := none, amount := none }⟩

/-- One iteration of the row loop in `calculate_single_stock_chain`
(limit_calculator.py lines 114-148), producing the emitted result row.
In every branch the new value of the running `chain_height` equals the
emitted `chain_height` field. -/
def chainStep (code : String) (limit_ratio : ℚ) (chain_height : Nat)
    (row : BarRow) : ChainRow :=
  match row.close, row.pre_close with
  | some _, some _ =>
      if is_limit_up row.close row.pre_close limit_ratio then
        { date := row.date, code := code, limit_status := 1,
          chain_height := chain_height + 1, is_fried := 0,
          board_type :=
            if is_yizi_board row.open_price row.high row.low row.close
                row.pre_close limit_ratio
            then "yizi" else "normal" }
      else if is_fried_board row.high row.close row.pre_close limit_ratio then
        { date := row.date, code := code, limit_status := 0,
          chain_height := 0, is_fried := 1, board_type := "fried" }
      else
        { date := row.date, code := code, limit_status := 0,
          chain_height := 0, is_fried := 0, board_type := "normal" }
  | _, _ =>
      -- rows with missing close/pre_close are skipped: chain resets to 0,
      -- the other columns keep their initialised values (0, 0, 'normal')
      { date := row.date, code := code, limit_status := 0,
        chain_height := 0, is_fried := 0, board_type := "normal" }

/-- The row loop of `calculate_single_stock_chain`, threading the running
`chain_height` counter (initialised to 0 by the caller). -/
def chainRows (code : String) (limit_ratio : ℚ) (chain_height : Nat) :
    List BarRow → List ChainRow
  | [] => []
  | row :: rest =>
      let out := chainStep code limit_ratio chain_height row
      out :: chainRows code limit_ratio out.chain_height rest

/-- The sort key of `df.sort_values('date')`. -/
def dateLe (a b : BarRow) : Prop := a.date ≤ b.date

instance : DecidableRel dateLe := fun a b => Nat.decLe a.date b.date

instance : IsTotal BarRow dateLe := ⟨fun a b => Nat.le_total a.date b.date⟩

instance : IsTrans BarRow dateLe := ⟨fun _ _ _ => Nat.le_trans⟩

/-- limit_calculator.py `calculate_single_stock_chain`: empty input yields
an empty result; otherwise the rows are sorted by date and folded with the
`chain_height` counter starting at 0. -/
def calculate_single_stock_chain (df : List BarRow) (code : String)
    (limit_ratio : ℚ) : List ChainRow :=
  if df = [] then []
  else chainRows code limit_ratio 0 (List.insertionSort dateLe df)

end StockLimit

namespace StockLimit

/-! ## Claim C2 — fried-board thresholds -/

/-- The fried-board predicate as the spec words it: both thresholds are
`limit_price * (1 - ε)` with `ε = LIMIT_TOLERANCE` the fixed fractional
tolerance.  Stated as a second definition to compare with the source's
`is_fried_board` (refinement target, written from the spec's words). -/
def is_fried_board_spec (high close pre_close limit_ratio : ℚ) : Bool :=
  let limit_price := pre_close * (1 + limit_ratio)
  decide (limit_price * (1 - LIMIT_TOLERANCE) ≤ high ∧
          close < limit_price * (1 - LIMIT_TOLERANCE))

/-- C2 counterexample: at high = 10.9, close = 10, previous_close = 10,
ratio = 0.10 (limit_price = 11) the code's `is_fried_board` returns true,
but the spec's condition `high >= limit_price*(1-ε) ∧ close < limit_price*(1-ε)`
is false (10.9 < 11 * 0.999 = 10.989), so the claimed equivalence fails. -/
theorem fried_board_spec_mismatch :
    is_fried_board (some (109/10)) (some 10) (some 10) (1/10) = true ∧
    is_fried_board_spec (109/10) 10 10 (1/10) = false := by
  constructor
  · norm_num [is_fried_board, LIMIT_TOLERANCE]
  · norm_num [is_fried_board_spec, LIMIT_TOLERANCE]

/-- C2 amended: for every bar whose high, close and previous_close are
present, `is_fried_board` is true iff
`high ≥ limit_price*(1 - limit_price*ε)` and
`close < limit_price*(1 - limit_price*ε)`, where
`limit_price = previous_close*(1+ratio)` and `ε = LIMIT_TOLERANCE`:
the source multiplies the tolerance by `limit_price` once more than the
spec's formula does. -/
theorem is_fried_board_iff_shifted_threshold (high close pre_close limit_ratio : ℚ) :
    is_fried_board (some high) (some close) (some pre_close) limit_ratio = true ↔
      (pre_close * (1 + limit_ratio) *
          (1 - pre_close * (1 + limit_ratio) * LIMIT_TOLERANCE) ≤ high ∧
       close < pre_close * (1 + limit_ratio) *
          (1 - pre_close * (1 + limit_ratio) * LIMIT_TOLERANCE)) := by
  simp [is_fried_board]


/-- Unfolding lemma: on a nonempty frame the empty-DataFrame guard of
`calculate_single_stock_chain` is skipped. -/
theorem calculate_single_stock_chain_cons (b : BarRow) (rest : List BarRow)
    (code : String) (limit_ratio : ℚ) :
    calculate_single_stock_chain (b :: rest) code limit_ratio =
      chainRows code limit_ratio 0 (List.insertionSort dateLe (b :: rest)) := by
  rw [calculate_single_stock_chain, if_neg (List.cons_ne_nil b rest)]

/-! ## Claim C5 — determinism of the 7-day streak example -/

/-- C5: on the literal 7-day (close, previous_close) sequence
[(11,10),(12.1,11),(13.31,12.1),(13.2,13.31),(14.3,13),(15.73,14.3),(16.0,15.73)]
supplied in date order with ratio 0.10, the engine emits exactly the
streak heights [1,2,3,0,1,2,0]. -/
theorem streak_sequence_seven_days :
    (calculate_single_stock_chain
      [{ date := 1, code := "X", open_price := none, high := none, low := none,
         close := some 11, pre_close := some 10, volume := none, amount := none },
       { date := 2, code := "X", open_price := none, high := none, low := none,
         close := some (121/10), pre_close := some 11, volume := none, amount := none },
       { date := 3, code := "X", open_price := none, high := none, low := none,
         close := some (1331/100), pre_close := some (121/10), volume := none, amount := none },
       { date := 4, code := "X", open_price := none, high := none, low := none,
         close := some (132/10), pre_close := some (1331/100), volume := none, amount := none },
       { date := 5, code := "X", open_price := none, high := none, low := none,
         close := some (143/10), pre_close := some 13, volume := none, amount := none },
       { date := 6, code := "X", open_price := none, high := none, low := none,
         close := some (1573/100), pre_close := some (143/10), volume := none, amount := none },
       { date := 7, code := "X", open_price := none, high := none, low := none,
         close := some 16, pre_close := some (1573/100), volume := none, amount := none }]
      "X" (1/10)).map (fun r => r.chain_height) = [1, 2, 3, 0, 1, 2, 0] := by
  norm_num [calculate_single_stock_chain_cons, chainRows, chainStep, is_limit_up,
    is_yizi_board, is_fried_board, LIMIT_TOLERANCE, List.insertionSort, dateLe]

/-! ## Claim C7 — one-word (yizi) board classification -/

/-- C7: a bar with open=high=low=close=11.0, previous_close=10.0 and
ratio 0.10 (limit_price = 11.0) is classified limit-up with
board_type "yizi"; the same bar with high = 11.2 is classified limit-up
with board_type "normal". -/
theorem one_word_board_classification :
    (calculate_single_stock_chain
      [{ date := 1, code := "A", open_price := some 11, high := some 11,
         low := some 11, close := some 11, pre_close := some 10,
         volume := none, amount := none }] "A" (1/10)).map
        (fun r => (r.limit_status, r.board_type)) = [(1, "yizi")] ∧
    (calculate_single_stock_chain
      [{ date := 1, code := "A", open_price := some 11, high := some (56/5),
         low := some 11, close := some 11, pre_close := some 10,
         volume := none, amount := none }] "A" (1/10)).map
        (fun r => (r.limit_status, r.board_type)) = [(1, "normal")] := by
  constructor <;>
    norm_num [calculate_single_stock_chain_cons, chainRows, chainStep, is_limit_up,
      is_yizi_board, is_fried_board, LIMIT_TOLERANCE, List.insertionSort, dateLe,
      abs_le]

/-! ## Claim C9 — monotonicity of is_limit_up in close -/

/-- C9: with the same positive previous_close and the same ratio, if the
lower close triggers limit-up then so does any higher close. -/
theorem is_limit_up_mono_in_close (c₁ c₂ pre_close limit_ratio : ℚ)
    (hpc : 0 < pre_close) (hle : c₂ ≤ c₁)
    (h₂ : is_limit_up (some c₂) (some pre_close) limit_ratio = true) :
    is_limit_up (some c₁) (some pre_close) limit_ratio = true := by
  simp only [is_limit_up, if_neg (not_le.mpr hpc)] at h₂ ⊢
  exact decide_eq_true (le_trans (of_decide_eq_true h₂) hle)

/-- C9 witness: previous_close = 10, ratio = 0.10, close₂ = 11 (limit-up),
close₁ = 12 ≥ close₂ is limit-up as well. -/
theorem is_limit_up_mono_in_close_witness :
    is_limit_up (some 12) (some 10) (1/10) = true :=
  is_limit_up_mono_in_close 12 11 10 (1/10) (by norm_num) (by norm_num)
    (by norm_num [is_limit_up, LIMIT_TOLERANCE])

end StockLimit

namespace StockLimit

/-! ## Claim C3 — the streak recurrence -/

/-- The emitted `chain_height` of one loop iteration: previous counter + 1
when the bar is limit-up, otherwise 0 (also for bars with missing data,
where `is_limit_up` is false). -/
theorem chainStep_chain_height (code : String) (limit_ratio : ℚ) (h : Nat)
    (row : BarRow) :
    (chainStep code limit_ratio h row).chain_height =
      if is_limit_up row.close row.pre_close limit_ratio then h + 1 else 0 := by
  rcases hc : row.close with _ | c
  · rcases hp : row.pre_close with _ | pc <;> simp [chainStep, hc, hp, is_limit_up]
  · rcases hp : row.pre_close with _ | pc
    · simp [chainStep, hc, hp, is_limit_up]
    · simp only [chainStep, hc, hp, is_limit_up]
      repeat' split
      all_goals simp_all

theorem chainRows_length (code : String) (limit_ratio : ℚ) :
    ∀ (l : List BarRow) (h : Nat), (chainRows code limit_ratio h l).length = l.length
  | [], _ => rfl
  | _ :: rest, h => by
      simp [chainRows, chainRows_length code limit_ratio rest]

/-- Successor case of the recurrence, over the raw loop with an arbitrary
initial counter. -/
theorem chainRows_getD_succ (code : String) (limit_ratio : ℚ) :
    ∀ (l : List BarRow) (h i : Nat), i + 1 < l.length →
      ((chainRows code limit_ratio h l).getD (i + 1) default).chain_height =
        (if is_limit_up (l.getD (i + 1) default).close
            (l.getD (i + 1) default).pre_close limit_ratio
         then ((chainRows code limit_ratio h l).getD i default).chain_height + 1
         else 0) := by
  intro l
  induction l with
  | nil => intro h i hi; exact absurd hi (by simp)
  | cons row rest ih =>
      intro h i hi
      cases i with
      | zero =>
          rcases rest with _ | ⟨row2, rest2⟩
          · exact absurd hi (by simp)
          · simp [chainRows, chainStep_chain_height]
      | succ j =>
          have hj : j + 1 < rest.length := by
            simpa using Nat.lt_of_succ_lt_succ hi
          simpa [chainRows] using
            ih (chainStep code limit_ratio h row).chain_height j hj

/-- Reset law over the raw loop: a non-limit-up bar always emits height 0,
whatever the incoming counter. -/
theorem chainRows_getD_reset (code : String) (limit_ratio : ℚ) :
    ∀ (l : List BarRow) (h i : Nat), i < l.length →
      is_limit_up (l.getD i default).close (l.getD i default).pre_close
        limit_ratio = false →
      ((chainRows code limit_ratio h l).getD i default).chain_height = 0 := by
  intro l
  induction l with
  | nil => intro h i hi; exact absurd hi (by simp)
  | cons row rest ih =>
      intro h i hi hup
      cases i with
      | zero => simp_all [chainRows, chainStep_chain_height]
      | succ j =>
          have hj : j < rest.length := Nat.lt_of_succ_lt_succ (by simpa using hi)
          simpa [chainRows] using
            ih (chainStep code limit_ratio h row).chain_height j hj
              (by simpa [chainRows] using hup)

/-- C3: for a bar sequence supplied in ascending date order, the emitted
streak height of each bar is the previous bar's streak height + 1 when the
bar is limit-up and 0 otherwise; any bar with `is_limit_up = false`
(including bars with missing close or previous close) emits height 0
regardless of the prior counter; the first bar starts from counter 0. -/
theorem streak_recurrence (bars : List BarRow) (code : String)
    (limit_ratio : ℚ) (hs : List.Sorted dateLe bars) :
    (∀ i, i + 1 < bars.length →
      ((calculate_single_stock_chain bars code limit_ratio).getD (i + 1)
          default).chain_height =
        (if is_limit_up (bars.getD (i + 1) default).close
            (bars.getD (i + 1) default).pre_close limit_ratio
         then ((calculate_single_stock_chain bars code limit_ratio).getD i
            default).chain_height + 1
         else 0)) ∧
    (∀ i, i < bars.length →
      is_limit_up (bars.getD i default).close (bars.getD i default).pre_close
        limit_ratio = false →
      ((calculate_single_stock_chain bars code limit_ratio).getD i
          default).chain_height = 0) ∧
    (0 < bars.length →
      ((calculate_single_stock_chain bars code limit_ratio).getD 0
          default).chain_height =
        (if is_limit_up (bars.getD 0 default).close
            (bars.getD 0 default).pre_close limit_ratio
         then 1 else 0)) := by
  rcases bars with _ | ⟨b, rest⟩
  · exact ⟨fun i hi => absurd hi (by simp), fun i hi => absurd hi (by simp),
      fun hi => absurd hi (by simp)⟩
  · rw [calculate_single_stock_chain_cons, hs.insertionSort_eq]
    refine ⟨fun i hi => chainRows_getD_succ code limit_ratio _ 0 i hi,
      fun i hi => chainRows_getD_reset code limit_ratio _ 0 i hi,
      fun _ => ?_⟩
    simp [chainRows, chainStep_chain_height]

/-- C3 witness: two sorted bars, the second not limit-up (close 11 over
previous close 11): its emitted height is 0 = (previous height not + 1),
the first bar's height is 1. -/
theorem streak_recurrence_witness :
    ((calculate_single_stock_chain
      [{ date := 1, code := "A", open_price := none, high := none, low := none,
         close := some 11, pre_close := some 10, volume := none, amount := none },
       { date := 2, code := "A", open_price := none, high := none, low := none,
         close := some 11, pre_close := some 11, volume := none, amount := none }]
      "A" (1/10)).getD 1 default).chain_height =
      (if is_limit_up (some (11 : ℚ)) (some 11) (1/10)
       then ((calculate_single_stock_chain
        [{ date := 1, code := "A", open_price := none, high := none, low := none,
           close := some 11, pre_close := some 10, volume := none, amount := none },
         { date := 2, code := "A", open_price := none, high := none, low := none,
           close := some 11, pre_close := some 11, volume := none, amount := none }]
        "A" (1/10)).getD 0 default).chain_height + 1
       else 0) := by
  have := (streak_recurrence
    [{ date := 1, code := "A", open_price := none, high := none, low := none,
       close := some 11, pre_close := some 10, volume := none, amount := none },
     { date := 2, code := "A", open_price := none, high := none, low := none,
       close := some 11, pre_close := some 11, volume := none, amount := none }]
    "A" (1/10) (by simp [List.sorted_cons, dateLe])).1 0 (by norm_num)
  simpa using this

end StockLimit

namespace StockLimit

/-! ## Claim C10 — order-independence of the input rows -/

/-- Strict version of the date order, used to identify the two sorted
arrangements of a duplicate-free frame. -/
def dateLt (a b : BarRow) : Prop := a.date < b.date

instance : IsAntisymm BarRow dateLt :=
  ⟨fun _ _ h₁ h₂ => absurd (Nat.lt_trans h₁ h₂) (Nat.lt_irrefl _)⟩

/-- C10 counterexample: with two rows sharing the same date (one limit-up,
one not), the two input orders are permutations of each other but produce
different outputs — `sort_values('date')` cannot disambiguate equal dates,
so the fold order (and hence the emitted streak heights) follows the input
order. -/
theorem chain_not_permutation_invariant :
    List.Perm
      ([{ date := 1, code := "A", open_price := none, high := none, low := none,
          close := some 11, pre_close := some 10, volume := none, amount := none },
        { date := 1, code := "A", open_price := none, high := none, low := none,
          close := some 10, pre_close := some 10, volume := none, amount := none }] :
        List BarRow)
      [{ date := 1, code := "A", open_price := none, high := none, low := none,
         close := some 10, pre_close := some 10, volume := none, amount := none },
       { date := 1, code := "A", open_price := none, high := none, low := none,
         close := some 11, pre_close := some 10, volume := none, amount := none }] ∧
    calculate_single_stock_chain
      [{ date := 1, code := "A", open_price := none, high := none, low := none,
         close := some 11, pre_close := some 10, volume := none, amount := none },
       { date := 1, code := "A", open_price := none, high := none, low := none,
         close := some 10, pre_close := some 10, volume := none, amount := none }]
      "A" (1/10) ≠
    calculate_single_stock_chain
      [{ date := 1, code := "A", open_price := none, high := none, low := none,
         close := some 10, pre_close := some 10, volume := none, amount := none },
       { date := 1, code := "A", open_price := none, high := none, low := none,
         close := some 11, pre_close := some 10, volume := none, amount := none }]
      "A" (1/10) := by
  refine ⟨List.Perm.swap _ _ [], ?_⟩
  norm_num [calculate_single_stock_chain_cons, chainRows, chainStep, is_limit_up,
    is_yizi_board, is_fried_board, LIMIT_TOLERANCE, List.insertionSort, dateLe,
    ChainRow.mk.injEq]

/-- C10 amended: for single-instrument frames whose dates are pairwise
distinct, `calculate_single_stock_chain` sorts by date before folding, so
its output is the same for every permutation of the input rows — the
caller need not supply the bars in ascending date order. -/
theorem chain_permutation_invariant_of_nodup_dates
    (bars₁ bars₂ : List BarRow) (code : String) (limit_ratio : ℚ)
    (hp : List.Perm bars₁ bars₂)
    (hnd : (bars₁.map (fun b => b.date)).Nodup) :
    calculate_single_stock_chain bars₁ code limit_ratio =
      calculate_single_stock_chain bars₂ code limit_ratio := by
  rcases h1 : bars₁ with _ | ⟨b, rest⟩
  · rw [h1] at hp
    rw [hp.symm.eq_nil]
  · rcases h2 : bars₂ with _ | ⟨b2, rest2⟩
    · rw [h1, h2] at hp
      exact absurd hp.eq_nil (by simp)
    · have hsort : List.insertionSort dateLe bars₁ = List.insertionSort dateLe bars₂ := by
        have hperm : List.Perm (List.insertionSort dateLe bars₁)
            (List.insertionSort dateLe bars₂) :=
          (List.perm_insertionSort dateLe bars₁).trans
            (hp.trans (List.perm_insertionSort dateLe bars₂).symm)
        have key : ∀ l : List BarRow, (l.map (fun b => b.date)).Nodup →
            List.Sorted dateLt (List.insertionSort dateLe l) := by
          intro l hl
          have hnds : ((List.insertionSort dateLe l).map (fun b => b.date)).Nodup :=
            (((List.perm_insertionSort dateLe l).map (fun b => b.date)).nodup_iff).mpr hl
          have hne : (List.insertionSort dateLe l).Pairwise
              (fun a b => a.date ≠ b.date) :=
            (List.pairwise_map).mp hnds
          have hle : (List.insertionSort dateLe l).Pairwise dateLe :=
            List.sorted_insertionSort dateLe l
          exact (hle.and hne).imp fun h => Nat.lt_of_le_of_ne h.1 h.2
        have hnd₂ : (bars₂.map (fun b => b.date)).Nodup :=
          ((hp.map (fun b => b.date)).nodup_iff).mp hnd
        exact List.eq_of_perm_of_sorted hperm (key bars₁ hnd) (key bars₂ hnd₂)
      rw [h1, h2] at hsort
      rw [calculate_single_stock_chain_cons, calculate_single_stock_chain_cons, hsort]

/-- C10 amended witness: two bars with distinct dates given in the two
possible orders produce the same output. -/
theorem chain_permutation_invariant_witness :
    calculate_single_stock_chain
      [{ date := 1, code := "A", open_price := none, high := none, low := none,
         close := some 11, pre_close := some 10, volume := none, amount := none },
       { date := 2, code := "A", open_price := none, high := none, low := none,
         close := some 10, pre_close := some 11, volume := none, amount := none }]
      "A" (1/10) =
    calculate_single_stock_chain
      [{ date := 2, code := "A", open_price := none, high := none, low := none,
         close := some 10, pre_close := some 11, volume := none, amount := none },
       { date := 1, code := "A", open_price := none, high := none, low := none,
         close := some 11, pre_close := some 10, volume := none, amount := none }]
      "A" (1/10) :=
  chain_permutation_invariant_of_nodup_dates _ _ "A" (1/10)
    (List.Perm.swap _ _ []) (by decide)

end StockLimit

namespace StockLimit

/-! ## data_fetcher.py — fetch_market_data_tushare -/

/-- Outcome of one `pro.daily(ts_code=...)` call: `err` is an exception
(caught; the loop continues and the call is not counted, since
`call_count += 1` runs after the call returns), `df rows` is a returned
DataFrame; `df []` models `df is None or df.empty`. -/
inductive FetchOutcome (ρ : Type) where
  | err : FetchOutcome ρ
  | df (rows : List ρ) : FetchOutcome ρ

/-- The rows carried by a call outcome. -/
def dfRows {ρ : Type} (o : FetchOutcome ρ) : List ρ :=
  match o with
  | .err => []
  | .df rows => rows

/-- data_fetcher.py lines 607-651: the per-instrument loop of
`fetch_market_data_tushare`, threading `call_count` and `all_data`.
Before each call, if rate limiting is enabled and
`call_count >= max_calls`, the remaining sequence is aborted with
`rate_limited = true`; the data accumulated so far is kept.  Returns
(concatenated data, rate_limited, call_count). -/
def tushareLoop {ρ : Type} (fetch : String → FetchOutcome ρ) (max_calls : Nat)
    (rate_limit_enable : Bool) :
    List String → Nat → List ρ → List ρ × Bool × Nat
  | [], call_count, all_data => (all_data, false, call_count)
  | code :: rest, call_count, all_data =>
      if rate_limit_enable = true ∧ max_calls ≤ call_count then
        (all_data, true, call_count)
      else
        match fetch code with
        | .err =>
            tushareLoop fetch max_calls rate_limit_enable rest call_count all_data
        | .df rows =>
            if rows.isEmpty then
              tushareLoop fetch max_calls rate_limit_enable rest (call_count + 1)
                all_data
            else
              tushareLoop fetch max_calls rate_limit_enable rest (call_count + 1)
                (all_data ++ rows)

/-- data_fetcher.py `fetch_market_data_tushare`: a missing token returns
(empty, false, 0) at once; `int(max_calls or TUSHARE_MAX_CALLS_PER_MIN)`
treats a passed 0 like None (Python falsiness); then the per-instrument
loop runs from `call_count = 0`.  A failing `tushare` import /`pro_api`
initialisation is an environment failure equivalent to the missing-token
early return and is not modelled separately. -/
def fetch_market_data_tushare {ρ : Type} (token : Option String)
    (fetch : String → FetchOutcome ρ) (stock_codes : List String)
    (max_calls : Option Nat) (rate_limit_enable : Bool) :
    List ρ × Bool × Nat :=
  match token with
  | none => ([], false, 0)
  | some _ =>
      let mc := match max_calls with
        | none => TUSHARE_MAX_CALLS_PER_MIN
        | some 0 => TUSHARE_MAX_CALLS_PER_MIN
        | some (n + 1) => n + 1
      tushareLoop fetch mc rate_limit_enable stock_codes 0 []

/-- When every pending call would succeed but strictly fewer than
`codes.length` calls remain within the budget, the loop completes exactly
the remaining budget, keeps the rows of the completed calls, and reports
`rate_limited = true` with `call_count = max_calls`. -/
theorem tushareLoop_rate_limit {ρ : Type} (fetch : String → FetchOutcome ρ)
    (mc : Nat) :
    ∀ (codes : List String) (count : Nat) (acc : List ρ),
      (∀ c ∈ codes, ∃ rows, fetch c = .df rows) →
      count ≤ mc → mc - count < codes.length →
      tushareLoop fetch mc true codes count acc =
        (acc ++ ((codes.take (mc - count)).map (fun c => dfRows (fetch c))).flatten,
         true, mc) := by
  intro codes
  induction codes with
  | nil => intro count acc _ _ hlt; exact absurd hlt (by simp)
  | cons c rest ih =>
      intro count acc hall hle hlt
      by_cases hc : mc ≤ count
      · have heq : mc = count := Nat.le_antisymm hc hle
        rw [tushareLoop, if_pos ⟨rfl, hc⟩]
        simp [heq]
      · have hcount : count < mc := Nat.lt_of_not_le hc
        rw [tushareLoop, if_neg (by simp [hc])]
        obtain ⟨rows, hrow⟩ := hall c (List.mem_cons_self c rest)
        simp only [hrow]
        have hle' : count + 1 ≤ mc := hcount
        have hlt' : mc - (count + 1) < rest.length := by
          simp only [List.length_cons] at hlt
          omega
        have hall' : ∀ x ∈ rest, ∃ rws, fetch x = .df rws :=
          fun x hx => hall x (List.mem_cons_of_mem c hx)
        have htake : (c :: rest).take (mc - count) =
            c :: rest.take (mc - (count + 1)) := by
          have : mc - count = (mc - (count + 1)) + 1 := by omega
          rw [this, List.take_succ_cons]
        rcases hemp : rows.isEmpty with _ | _
        · rw [if_neg (by simp [hemp]), ih (count + 1) (acc ++ rows) hall' hle' hlt',
            htake]
          simp [hrow, dfRows]
        · rw [if_pos (by simp [hemp]), ih (count + 1) acc hall' hle' hlt', htake]
          have : rows = [] := List.isEmpty_iff.mp hemp
          simp [hrow, dfRows, this]

/-- C4: with rate limiting enabled and `max_calls = 5`, a sequence of 8
pending per-instrument calls each of which would succeed completes exactly
5 calls and aborts the rest: `rate_limited = true`, `call_count = 5`, and
the result keeps exactly the rows fetched by the 5 completed calls. -/
theorem tushare_rate_governor_boundary {ρ : Type} (token : String)
    (fetch : String → FetchOutcome ρ) (codes : List String)
    (hlen : codes.length = 8)
    (hall : ∀ c ∈ codes, ∃ rows, fetch c = .df rows) :
    fetch_market_data_tushare (some token) fetch codes (some 5) true =
      (((codes.take 5).map (fun c => dfRows (fetch c))).flatten, true, 5) := by
  show tushareLoop fetch 5 true codes 0 [] = _
  rw [tushareLoop_rate_limit fetch 5 codes 0 [] hall (Nat.zero_le 5)
    (by rw [hlen]; norm_num)]
  simp

/-- C4 witness: 8 concrete codes, each fetch returning one row; the run
returns the rows of the first 5 calls, `rate_limited = true` and
`call_count = 5`. -/
theorem tushare_rate_governor_boundary_witness :
    fetch_market_data_tushare (some "tok") (fun c => FetchOutcome.df [c])
      ["c1", "c2", "c3", "c4", "c5", "c6", "c7", "c8"] (some 5) true =
      (["c1", "c2", "c3", "c4", "c5"], true, 5) := by
  have h := tushare_rate_governor_boundary "tok" (fun c => FetchOutcome.df [c])
    ["c1", "c2", "c3", "c4", "c5", "c6", "c7", "c8"] rfl
    (fun c _ => ⟨[c], rfl⟩)
  simpa [dfRows] using h

end StockLimit

namespace StockLimit

/-! ## database.py — tables with a UNIQUE(date, code) constraint -/

/-- The UNIQUE(date, code) key of a `daily_market_data` row. -/
def BarRow.key (r : BarRow) : Nat × String := (r.date, r.code)

/-- The UNIQUE(date, code) key of a `limit_analysis_result` row. -/
def ChainRow.key (r : ChainRow) : Nat × String := (r.date, r.code)

/-- Sequential execution of one multi-row INSERT statement: rows are
checked in order against the UNIQUE(date, code) constraint (also against
rows inserted earlier by the same statement); at the first violation the
statement fails and is rolled back (`none`), leaving the table as it was
before the statement. -/
def insertAll {α : Type} (key : α → Nat × String) :
    List α → List α → Option (List α)
  | table, [] => some table
  | table, r :: rs =>
      if table.any (fun t => key t = key r) then none
      else insertAll key (table ++ [r]) rs

/-- Slicing of a frame into chunks of `n + 1` rows
(`for start in range(0, total_rows, chunk_size)`). -/
def chunksOf {α : Type} (n : Nat) (l : List α) : List (List α) :=
  match l with
  | [] => []
  | x :: xs => (x :: xs).take (n + 1) :: chunksOf n (xs.drop n)
  termination_by l.length
  decreasing_by simp [List.length_drop]; omega

/-- The chunk loop of `save_daily_data`: each chunk is one multi-row
INSERT followed by a commit; a failing chunk raises after the earlier
chunks are already committed, so the loop stops there.  Returns the table
after the committed chunks and whether an exception was raised. -/
def save_chunks_daily : List BarRow → List (List BarRow) → List BarRow × Bool
  | table, [] => (table, false)
  | table, ch :: rest =>
      match insertAll BarRow.key table ch with
      | some t' => save_chunks_daily t' rest
      | none => (table, true)

/-- database.py `save_daily_data`: the frame is appended in chunks of
`min(DAILY_SAVE_CHUNK_SIZE = 50000, 100) = 100` rows. -/
def save_daily_data (table data : List BarRow) : List BarRow × Bool :=
  save_chunks_daily table (chunksOf 99 data)

/-- database.py `save_limit_results`: one `to_sql` append inside a single
transaction — on a UNIQUE violation the transaction rolls back, the table
is unchanged and the error propagates. -/
def save_limit_results (table results : List ChainRow) : List ChainRow × Bool :=
  match insertAll ChainRow.key table results with
  | some t' => (t', false)
  | none => (table, true)

/-! ## Backfill state (database.py tables touched by backfill_manager.py) -/

/-- The `status` column of `fetch_progress`. -/
inductive TaskStatus where
  | pending | running | completed | rate_limited | interrupted | failed
  deriving DecidableEq

/-- A `fetch_progress` row (task_id is its PRIMARY KEY). -/
structure TaskRec where
  task_id : String
  start_date : String
  end_date : String
  status : TaskStatus
  deriving DecidableEq

/-- The persistent state touched by the backfill manager, plus the ordered
log of status values written through `update_fetch_progress` (used to
observe the sequence of status transitions). -/
structure DB where
  fetch_progress : List TaskRec
  daily_market_data : List BarRow
  limit_analysis_result : List ChainRow
  stock_meta : List (String × ℚ)
  status_trace : List TaskStatus
  deriving DecidableEq

/-- database.py `update_fetch_progress`: sets the status of the row with
the given task_id (and records the write in the trace). -/
def update_fetch_progress (db : DB) (task_id : String) (status : TaskStatus) : DB :=
  { db with
    fetch_progress := db.fetch_progress.map
      (fun t => if t.task_id = task_id then { t with status := status } else t),
    status_trace := db.status_trace ++ [status] }

/-! ## limit_calculator.py — calculate_batch_chain -/

/-- limit_calculator.py `calculate_batch_chain`: group the market frame by
code (pandas iterates the groups in sorted key order, each group keeping
the original row order), compute each stock's chain with its limit ratio
(default `LIMIT_RATIO['MAIN']` when the code is missing from the meta
frame), and concatenate the non-empty results. -/
def calculate_batch_chain (market_data : List BarRow)
    (stock_meta : List (String × ℚ)) : List ChainRow :=
  let codes := ((market_data.map (fun r => r.code)).dedup).insertionSort (· ≤ ·)
  (codes.map (fun c =>
    let limit_ratio :=
      ((stock_meta.find? (fun m => m.1 = c)).map Prod.snd).getD LIMIT_RATIO_MAIN
    calculate_single_stock_chain (market_data.filter (fun r => r.code = c)) c
      limit_ratio)).flatten

/-! ## backfill_manager.py — _process_batch -/

/-- The environment's answer to one batch's
`fetch_market_data_tushare` call: either the call chain raised
(`exception`, caught by `_process_batch` which returns (False, False)), or
it returned a data frame together with its `rate_limited` flag. -/
inductive BatchFetch where
  | exception : BatchFetch
  | fetched (data : List BarRow) (rate_limited : Bool) : BatchFetch

/-- backfill_manager.py `BackfillManager._process_batch` (with
`TUSHARE_USE_IN_BACKFILL = True`): empty data fails the batch; otherwise
the market rows are saved (a save exception is caught and only logged),
the chains are computed over the batch's stocks and saved (again catching
any exception), and the batch succeeds.  Returns (state, success,
rate_limited). -/
def process_batch (db : DB) (batch_codes : List String)
    (stocks : List (String × ℚ)) : BatchFetch → DB × Bool × Bool
  | .exception => (db, false, false)
  | .fetched data rate_limited =>
      if data.isEmpty then (db, false, rate_limited)
      else
        let db₁ := { db with
          daily_market_data := (save_daily_data db.daily_market_data data).1 }
        let batch_stocks := stocks.filter (fun s => batch_codes.contains s.1)
        let batch_results := calculate_batch_chain data batch_stocks
        let db₂ := if batch_results.isEmpty then db₁
          else { db₁ with
            limit_analysis_result :=
              (save_limit_results db₁.limit_analysis_result batch_results).1 }
        (db₂, true, rate_limited)

/-! ## Claim C6 — duplicate (date, code) keys are recoverable -/

/-- A successful multi-row INSERT cannot touch a key that is already
present: the number of rows with that key is unchanged. -/
theorem insertAll_count_of_mem {α : Type} (key : α → Nat × String) :
    ∀ (rs table t' : List α), insertAll key table rs = some t' →
      ∀ k, table.any (fun r => key r = k) = true →
        (t'.filter (fun r => key r = k)).length =
          (table.filter (fun r => key r = k)).length := by
  intro rs
  induction rs with
  | nil => intro table t' h k _; cases h; rfl
  | cons r rs ih =>
      intro table t' h k hk
      rw [insertAll] at h
      by_cases hdup : table.any (fun t => key t = key r) = true
      · rw [if_pos hdup] at h; cases h
      · rw [if_neg hdup] at h
        have hne : key r ≠ k := by
          intro hkr
          obtain ⟨x, hx, hxk⟩ := List.any_eq_true.mp hk
          exact hdup (List.any_eq_true.mpr ⟨x, hx, by
            simpa [hkr] using hxk⟩)
        have hk' : (table ++ [r]).any (fun x => key x = k) = true := by
          simp only [List.any_append] at *
          simp [hk]
        have := ih (table ++ [r]) t' h k hk'
        rwa [List.filter_append, List.filter_cons, if_neg (by simp [hne]),
          List.filter_nil, List.append_nil] at this

/-- The chunk loop preserves the row count of any key already present. -/
theorem save_chunks_daily_count (k : Nat × String) :
    ∀ (chs : List (List BarRow)) (table : List BarRow),
      table.any (fun r => BarRow.key r = k) = true →
      (((save_chunks_daily table chs).1).filter
          (fun r => BarRow.key r = k)).length =
        (table.filter (fun r => BarRow.key r = k)).length := by
  intro chs
  induction chs with
  | nil => intro table _; rfl
  | cons ch rest ih =>
      intro table hk
      rw [save_chunks_daily]
      cases hins : insertAll BarRow.key table ch with
      | none => rfl
      | some t' =>
          have hcnt := insertAll_count_of_mem BarRow.key ch table t' hins k hk
          have htlen : 0 < (table.filter (fun r => BarRow.key r = k)).length := by
            obtain ⟨x, hx, hxk⟩ := List.any_eq_true.mp hk
            exact List.length_pos_of_mem (List.mem_filter.mpr ⟨hx, hxk⟩)
          have hk' : t'.any (fun r => BarRow.key r = k) = true := by
            have hpos : 0 < (t'.filter (fun r => BarRow.key r = k)).length := by
              omega
            obtain ⟨y, hy⟩ := List.exists_mem_of_length_pos hpos
            have hmem := List.mem_filter.mp hy
            exact List.any_eq_true.mpr ⟨y, hmem.1, hmem.2⟩
          rw [ih t' hk', hcnt]

/-- From a unique stored row with the key, the table contains the key. -/
theorem any_key_of_filter_length_one {α : Type} (p : α → Bool) (l : List α)
    (h : (l.filter p).length = 1) : l.any p = true := by
  obtain ⟨y, hy⟩ := List.exists_mem_of_length_pos
    (show 0 < (l.filter p).length by omega)
  have hmem := List.mem_filter.mp hy
  exact List.any_eq_true.mpr ⟨y, hmem.1, hmem.2⟩

/-- C6: writing a Bar or a StreakRecord whose (date, code) key is already
stored leaves exactly one row for that key (the insert is rejected by the
UNIQUE constraint, never duplicated), and `_process_batch` treats the
resulting exception as recoverable: the saves are wrapped in try/except
(warning logged) and the batch still returns success — the violation never
aborts the run. -/
theorem duplicate_key_recoverable :
    (∀ (table data : List BarRow) (k : Nat × String),
      (table.filter (fun r => BarRow.key r = k)).length = 1 →
      (((save_daily_data table data).1).filter
          (fun r => BarRow.key r = k)).length = 1) ∧
    (∀ (table results : List ChainRow) (k : Nat × String),
      (table.filter (fun r => ChainRow.key r = k)).length = 1 →
      (((save_limit_results table results).1).filter
          (fun r => ChainRow.key r = k)).length = 1) ∧
    (∀ (db : DB) (batch_codes : List String) (stocks : List (String × ℚ))
        (data : List BarRow) (rl : Bool), data ≠ [] →
      (process_batch db batch_codes stocks (.fetched data rl)).2.1 = true) := by
  refine ⟨fun table data k h1 => ?_, fun table results k h1 => ?_,
    fun db batch_codes stocks data rl hne => ?_⟩
  · have hany := any_key_of_filter_length_one _ table h1
    rw [save_daily_data, save_chunks_daily_count k _ table hany, h1]
  · rw [save_limit_results]
    cases hins : insertAll ChainRow.key table results with
    | none => exact h1
    | some t' =>
        have hany := any_key_of_filter_length_one _ table h1
        have := insertAll_count_of_mem ChainRow.key results table t' hins k hany
        simpa [this] using h1
  · simp [process_batch, List.isEmpty_iff, hne]

/-- C6 witness: re-inserting an already-stored bar row, an already-stored
streak row, and running a batch whose save hits the duplicate, all keep
one stored row per key and the batch still succeeds. -/
theorem duplicate_key_recoverable_witness :
    (((save_daily_data
        [{ date := 1, code := "A", open_price := none, high := none, low := none,
           close := some 11, pre_close := some 10, volume := none, amount := none }]
        [{ date := 1, code := "A", open_price := none, high := none, low := none,
           close := some 11, pre_close := some 10, volume := none, amount := none }]).1).filter
        (fun r => BarRow.key r = (1, "A"))).length = 1 ∧
    (((save_limit_results
        [{ date := 1, code := "A", limit_status := 1, chain_height := 1,
           is_fried := 0, board_type := "normal" }]
        [{ date := 1, code := "A", limit_status := 1, chain_height := 1,
           is_fried := 0, board_type := "normal" }]).1).filter
        (fun r => ChainRow.key r = (1, "A"))).length = 1 ∧
    (process_batch
      { fetch_progress := [], daily_market_data := [],
        limit_analysis_result := [], stock_meta := [], status_trace := [] }
      [] []
      (BatchFetch.fetched
        [{ date := 1, code := "A", open_price := none, high := none, low := none,
           close := some 11, pre_close := some 10, volume := none, amount := none }]
        false)).2.1 = true :=
  ⟨duplicate_key_recoverable.1 _ _ (1, "A") (by simp [BarRow.key]),
   duplicate_key_recoverable.2.1 _ _ (1, "A") (by simp [ChainRow.key]),
   duplicate_key_recoverable.2.2 _ [] [] _ false (by simp)⟩

end StockLimit

namespace StockLimit

/-! ## backfill_manager.py — BackfillManager.run and resume -/

/-- The environment's answer for one iteration of `run`'s batch loop: the
batch's fetch outcome, a KeyboardInterrupt raised during the batch (it is
a BaseException, so `_process_batch`'s `except Exception` does not catch
it and it reaches `run`'s handler), or some other exception reaching
`run`'s generic handler (a failed batch; the loop continues). -/
inductive RunEvent where
  | batchFetch (bf : BatchFetch) : RunEvent
  | kbInterrupt : RunEvent
  | otherError : RunEvent

/-- backfill_manager.py `_create_task_record`: INSERT of a fetch_progress
row with status `pending`; `task_id` is the table's PRIMARY KEY, so an
already-present id raises an uncaught IntegrityError, modelled as `none`. -/
def create_task_record (db : DB) (task_id start_date end_date : String) :
    Option DB :=
  if db.fetch_progress.any (fun t => t.task_id = task_id) then none
  else some { db with fetch_progress :=
    db.fetch_progress ++ [⟨task_id, start_date, end_date, .pending⟩] }

/-- database.py `save_stock_meta` (`if_exists='replace'`): replaces the
stock_meta table. -/
def save_stock_meta (db : DB) (stocks : List (String × ℚ)) : DB :=
  { db with stock_meta := stocks }

/-- The batch loop of `run` (backfill_manager.py lines 67-101), running
`remaining` more batches starting at index `i`.  A rate-limited batch
writes status `rate_limited` and breaks; a KeyboardInterrupt writes
`interrupted` and breaks; any other exception only counts a failure and
continues with the next batch. -/
def runLoop (task_id : String) (batch_size : Nat) (stocks : List (String × ℚ))
    (events : Nat → RunEvent) : Nat → Nat → DB → DB
  | _, 0, db => db
  | i, remaining + 1, db =>
      match events i with
      | .kbInterrupt => update_fetch_progress db task_id .interrupted
      | .otherError => runLoop task_id batch_size stocks events (i + 1) remaining db
      | .batchFetch bf =>
          let stock_codes := stocks.map Prod.fst
          let batch_codes := (stock_codes.drop (i * batch_size)).take batch_size
          let res := process_batch db batch_codes stocks bf
          if res.2.2 then update_fetch_progress res.1 task_id .rate_limited
          else runLoop task_id batch_size stocks events (i + 1) remaining res.1

/-- backfill_manager.py `BackfillManager.run`: create the task record
(status `pending`); if the stock list is empty write `failed` and return;
otherwise save the stock meta, write `running`, run the batch loop over
`ceil(len(stocks) / batch_size)` batches, and then — unconditionally, even
when the loop broke after writing `rate_limited` or `interrupted` — write
`completed`.  `none` models the uncaught IntegrityError from task
creation. -/
def BackfillManager_run (db : DB) (task_id start_date end_date : String)
    (batch_size : Nat) (stocks : List (String × ℚ))
    (events : Nat → RunEvent) : Option DB :=
  match create_task_record db task_id start_date end_date with
  | none => none
  | some db₁ =>
      if stocks.isEmpty then
        some (update_fetch_progress db₁ task_id .failed)
      else
        let db₂ := update_fetch_progress (save_stock_meta db₁ stocks) task_id .running
        let total_batches := (stocks.length + batch_size - 1) / batch_size
        let db₃ := runLoop task_id batch_size stocks events 0 total_batches db₂
        some (update_fetch_progress db₃ task_id .completed)

/-- backfill_manager.py `resume_interrupted_task`: an unknown task id or a
persisted status `completed` returns without touching anything; otherwise
a manager with the task's original date range (and the default batch size)
re-runs the whole loop under the original task id. -/
def resume_interrupted_task (db : DB) (task_id : String)
    (stocks : List (String × ℚ)) (events : Nat → RunEvent) : Option DB :=
  match db.fetch_progress.find? (fun t => t.task_id = task_id) with
  | none => some db
  | some t =>
      if t.status = .completed then some db
      else BackfillManager_run db task_id t.start_date t.end_date
        FETCH_BATCH_SIZE stocks events

/-! ## Claim C1 — final persisted status after run -/

/-- C1 (bug evidence): a run whose single batch is halted by the Rate
Governor writes `rate_limited` — but the unconditional
`_update_task_status('completed')` after the loop then overwrites it, so
the status trace is [running, rate_limited, completed] and the final
persisted status is `completed`, not `rate_limited` as the spec requires.
(The same overwrite hits the `interrupted` path.) -/
theorem run_overwrites_halt_status :
    (BackfillManager_run
      { fetch_progress := [], daily_market_data := [],
        limit_analysis_result := [], stock_meta := [], status_trace := [] }
      "t1" "20250101" "20250201" 100 [("000001", 1/10)]
      (fun _ => RunEvent.batchFetch (BatchFetch.fetched
        [{ date := 1, code := "000001", open_price := none, high := none,
           low := none, close := some 11, pre_close := some 10,
           volume := none, amount := none }]
        true))).map
      (fun db => (db.status_trace,
        (db.fetch_progress.find? (fun t => t.task_id = "t1")).map
          (fun t => t.status))) =
      some ([TaskStatus.running, TaskStatus.rate_limited, TaskStatus.completed],
        some TaskStatus.completed) := by
  with_unfolding_all rfl

/-! ## Claim C8 — resume is a strict no-op on completed / missing tasks -/

/-- C8: resuming a task whose persisted status is `completed` performs no
batch and leaves the whole persistent state (bars, streak results, task
records) unchanged; resuming an unknown task id performs no mutation at
all. -/
theorem resume_noop (db : DB) (task_id : String)
    (stocks : List (String × ℚ)) (events : Nat → RunEvent) :
    (db.fetch_progress.find? (fun t => t.task_id = task_id) = none →
      resume_interrupted_task db task_id stocks events = some db) ∧
    (∀ t, db.fetch_progress.find? (fun t => t.task_id = task_id) = some t →
      t.status = TaskStatus.completed →
      resume_interrupted_task db task_id stocks events = some db) := by
  constructor
  · intro hnone
    rw [resume_interrupted_task, hnone]
  · intro t hfind hstatus
    rw [resume_interrupted_task, hfind]
    simp [hstatus]

/-- C8 witness: a store holding one completed task "t1": resuming "t1" and
resuming the unknown id "t2" both return the store unchanged. -/
theorem resume_noop_witness :
    resume_interrupted_task
      { fetch_progress := [⟨"t1", "20250101", "20250201", TaskStatus.completed⟩],
        daily_market_data := [], limit_analysis_result := [],
        stock_meta := [], status_trace := [] }
      "t1" [] (fun _ => RunEvent.otherError) =
      some
        { fetch_progress := [⟨"t1", "20250101", "20250201", TaskStatus.completed⟩],
          daily_market_data := [], limit_analysis_result := [],
          stock_meta := [], status_trace := [] } ∧
    resume_interrupted_task
      { fetch_progress := [⟨"t1", "20250101", "20250201", TaskStatus.completed⟩],
        daily_market_data := [], limit_analysis_result := [],
        stock_meta := [], status_trace := [] }
      "t2" [] (fun _ => RunEvent.otherError) =
      some
        { fetch_progress := [⟨"t1", "20250101", "20250201", TaskStatus.completed⟩],
          daily_market_data := [], limit_analysis_result := [],
          stock_meta := [], status_trace := [] } :=
  ⟨(resume_noop _ "t1" [] (fun _ => RunEvent.otherError)).2
      ⟨"t1", "20250101", "20250201", TaskStatus.completed⟩ (by rfl) rfl,
   (resume_noop _ "t2" [] (fun _ => RunEvent.otherError)).1 (by rfl)⟩

end StockLimit
